import Mathlib

/-!
Verification of the prompt-orchestration and response-validation layer of the
WRITEFACTORY content-analytics service (`lib/ai-service.ts`).

The TypeScript source is shallowly embedded:
* JSON values returned by `JSON.parse` are modelled by the inductive `Json`;
  `JSON.parse` itself is an external runtime primitive and is treated as an
  uninterpreted total function `String → Option Json` (`none` = the parser
  threw), passed as a parameter to the pipeline functions.
* JavaScript property access `base.key` throws a `TypeError` when the base is
  `undefined` or `null` and yields `undefined` for absent keys; `undefined` is
  modelled as `Option.none` around `Json`.
* The single outbound network call of `callOpenAI` is modelled by a
  `FetchOutcome` parameter describing the HTTP response; the number of calls
  actually issued is reported in the `apiCalls` field of the result.
* The exceptions thrown by the source are the error branch of `Except`;
  `console.warn` / `console.error` / `console.log` output is collected in
  explicit log fields (`console.error` keeps the raw model response it was
  passed, which is what the spec calls the error context).
-/

namespace WF

/-- A JSON value as produced by `JSON.parse`. Numbers are modelled as exact
rationals (IEEE-754 double rounding is not claim-relevant here). -/
inductive Json where
  | jnull
  | jbool (b : Bool)
  | jnum (q : ℚ)
  | jstr (s : String)
  | jarr (elems : List Json)
  | jobj (fields : List (String × Json))
deriving Repr

/-- JavaScript truthiness of a JSON value (`NaN` cannot arise from
`JSON.parse`). -/
def jsTruthy : Json → Bool
  | .jnull => false
  | .jbool b => b
  | .jnum q => q != 0
  | .jstr s => s != ""
  | .jarr _ => true
  | .jobj _ => true

/-- Truthiness of a JavaScript value that may be `undefined` (`none`). -/
def truthyVal : Option Json → Bool
  | none => false
  | some j => jsTruthy j

/-- Runtime faults of the JavaScript code that the `try`/`catch` blocks in the
source can intercept. -/
inductive JsFault where
  | syntaxError
  | typeError
deriving DecidableEq, Repr

/-- First-match lookup in a parsed object's field list (`JSON.parse` output has
one value per key, so first-match equals the object's binding). -/
def lookupFs : List (String × Json) → String → Option Json
  | [], _ => none
  | (k, v) :: rest, key => if k = key then some v else lookupFs rest key

/-- JS member access `base.key`: throws `TypeError` on `undefined`/`null`
bases, looks the key up on objects, and yields `undefined` on other bases. -/
def getProp : Option Json → String → Except JsFault (Option Json)
  | none, _ => .error .typeError
  | some .jnull, _ => .error .typeError
  | some (.jobj fs), key => .ok (lookupFs fs key)
  | some _, _ => .ok none

/-- JS optional chaining `base?.key`: like `getProp` but yields `undefined`
instead of throwing on `undefined`/`null` bases. -/
def optChain : Option Json → String → Option Json
  | none, _ => none
  | some .jnull, _ => none
  | some (.jobj fs), key => lookupFs fs key
  | some _, _ => none

/-- Total field lookup on a JSON value: the field's value on objects that have
the key, absent (`none`) otherwise. -/
def jGet : Json → String → Option Json
  | .jobj fs, key => lookupFs fs key
  | _, _ => none

/-- JS `v || d` for a possibly-`undefined` value `v`. -/
def jsOr (v : Option Json) (d : Json) : Json :=
  match v with
  | some j => if jsTruthy j then j else d
  | none => d

/-- JS `String.prototype.trim`: drop whitespace from both ends (implemented
structurally over the character list so that it evaluates inside the
kernel). -/
def trimList (cs : List Char) : List Char :=
  ((cs.dropWhile Char.isWhitespace).reverse.dropWhile Char.isWhitespace).reverse

/-- JS `s.trim()`. -/
def jsTrim (s : String) : String := String.mk (trimList s.toList)

/-- `stripAt pat cs` returns the remainder of `cs` after `pat` when `cs`
starts with `pat`, and `none` otherwise. -/
def stripAt : List Char → List Char → Option (List Char)
  | [], cs => some cs
  | _ :: _, [] => none
  | p :: ps, c :: cs => if c = p then stripAt ps cs else none

/-- JS `s.startsWith(pat)`. -/
def headMatch (pat cs : List Char) : Bool :=
  (stripAt pat cs).isSome

/-- JS `s.replace(pat, '')` with a string pattern: remove only the first
occurrence of `pat`. -/
def removeFirst (pat : List Char) : List Char → List Char
  | [] => []
  | c :: cs =>
    match stripAt pat (c :: cs) with
    | some rest => rest
    | none => c :: removeFirst pat cs

/-- The markdown-fence cleanup both phases apply to the raw model text before
`JSON.parse`: `trim()`, then if the text starts with a ```` ```json ```` fence,
`replace('```json', '')`, `replace('```', '')` and `trim()` again. -/
def cleanResponseOf (response : String) : String :=
  let c := jsTrim response
  if headMatch ("```json".toList) c.toList then
    jsTrim (String.mk (removeFirst ("```".toList)
      (removeFirst ("```json".toList) c.toList)))
  else c

/-! ### Stable descending sort

`Array.prototype.sort` with the comparator `(a, b) => keyOf(b) - keyOf(a)`
is, per the ECMAScript specification (stability is required since ES2019), the
unique stable sort that orders elements by `keyOf` descending whenever the
comparator is consistent (it is, when every element has a numeric key).  We
model it by a stable insertion sort parameterized by the key. -/

/-- Insert `x` into a descending-sorted list, after all elements whose key is
strictly greater and before the first element with an equal-or-smaller key
(so an element inserted later than the rest of the list sits after its
equals, which is what stability requires given the traversal order of
`sortDescBy`). -/
def insDesc {α β : Type} [LinearOrder β] (key : α → β) (x : α) : List α → List α
  | [] => [x]
  | y :: ys => if key y ≤ key x then x :: y :: ys else y :: insDesc key x ys

/-- Stable sort by `key`, descending. -/
def sortDescBy {α β : Type} [LinearOrder β] (key : α → β) : List α → List α
  | [] => []
  | x :: xs => insDesc key x (sortDescBy key xs)

/-- Ascending counterpart of `insDesc` (same stability discipline). -/
def insAsc {α β : Type} [LinearOrder β] (key : α → β) (x : α) : List α → List α
  | [] => [x]
  | y :: ys => if key x ≤ key y then x :: y :: ys else y :: insAsc key x ys

/-- Stable sort by `key`, ascending (used for the numeric ordering of
array-index property keys in `Object.entries` enumeration). -/
def sortAscBy {α β : Type} [LinearOrder β] (key : α → β) : List α → List α
  | [] => []
  | x :: xs => insAsc key x (sortAscBy key xs)

/-! ### Completion client (`callOpenAI`) -/

/-- The `message` member of one `choices` entry of a success body; its
`content` may be absent. -/
structure MessageBody where
  content : Option String

/-- One entry of the `choices` array. -/
structure Choice where
  message : Option MessageBody

/-- The parsed JSON body of a 2xx completion response; the `choices` field
itself may be absent. -/
structure SuccessBody where
  choices : Option (List Choice)

/-- The outcome of the single `fetch` call: either a non-2xx status (with the
parsed error body, `none` when the body itself was unparsable, plus the
`statusText`), or a success body. -/
inductive FetchOutcome where
  | httpError (errBody : Option Json) (statusText : String)
  | success (body : SuccessBody)

/-- Ways `callOpenAI` can throw: the missing-credential configuration error,
the upstream non-2xx error (carrying the extracted `error.error?.message`
value and the `statusText`; the template-literal formatting of the final
message string is not modelled, no claim depends on it), or an uncaught
JavaScript fault. -/
inductive CallErr where
  | configError (msg : String)
  | upstream (errMessageVal : Option Json) (statusText : String)
  | jsFault (f : JsFault)

/-- `data.choices[0]?.message?.content || ''` for a present `choices` array:
out-of-range indexing and the optional chains yield `undefined`, and `|| ''`
maps `undefined` and the empty string to `''`. -/
def extractContent (cs : List Choice) : String :=
  match cs.head? with
  | none => ""
  | some c =>
    match c.message with
    | none => ""
    | some m => m.content.getD ""

/-- `callOpenAI`: credential check, one network call, error-body handling on
non-2xx, then `data.choices[0]?.message?.content || ''`.  When `choices` is
absent the unguarded `data.choices[0]` faults (`TypeError`), because the
optional chain starts only after the indexing. -/
def callOpenAI (apiKey : String) (fetchResult : FetchOutcome) : Except CallErr String :=
  if apiKey = "" then .error (.configError "OPENAI_API_KEY 未配置")
  else
    match fetchResult with
    | .httpError errBody statusText =>
      -- `const error = await response.json().catch(() => ({error: {message: 'Unknown error'}}))`
      let fallback := Json.jobj [("error", Json.jobj [("message", Json.jstr "Unknown error")])]
      -- `error.error?.message` (plain access, then optional chain)
      match getProp (some (errBody.getD fallback)) "error" with
      | .error f => .error (.jsFault f)
      | .ok ev => .error (.upstream (optChain ev "message") statusText)
    | .success body =>
      match body.choices with
      | none => .error (.jsFault .typeError)
      | some cs => .ok (extractContent cs)

/-! ### Phase-1 prompt data (`deepAnalyzeArticles`, lines 65-74) -/

/-- An input article as typed in the source. -/
structure ArticleInput where
  title : String
  content : Option String
  likes : Nat
  reads : Nat
  url : String

/-- One element of the `articlesJson` array embedded into the phase-1
prompt. -/
structure EmbeddedArticle where
  index : Nat
  title : String
  content : String
  likes : Nat
  reads : Nat
  engagement : String

/-- `((likes / reads) * 100).toFixed(1)` for `reads > 0`, modelled over exact
rationals: `tenths` is `likes / reads * 1000` rounded to the nearest integer
with halves rounded up (the `toFixed` rounding of the exact value; IEEE-754
double rounding of the intermediate product is abstracted away), rendered as
`⌊tenths / 10⌋.(tenths mod 10)` — one digit after the decimal point. -/
def toFixed1Of (likes reads : Nat) : String :=
  let tenths := (2000 * likes + reads) / (2 * reads)
  toString (tenths / 10) ++ "." ++ toString (tenths % 10)

/-- The arrow function of `articles.map((a, i) => ...)`: 1-based `index`,
body truncated to its first 3000 units (JS counts UTF-16 code units, we count
characters), and the engagement percentage string (`'0'` when `reads` is
zero). -/
def embedArticle (i : Nat) (a : ArticleInput) : EmbeddedArticle :=
  { index := i + 1
    title := a.title
    content := String.mk ((a.content.getD "").toList.take 3000)
    likes := a.likes
    reads := a.reads
    engagement := if a.reads > 0 then toFixed1Of a.likes a.reads else "0" }

/-- The array serialized into `articlesJson` of the phase-1 prompt. -/
def builtArticles (articles : List ArticleInput) : List EmbeddedArticle :=
  articles.mapIdx embedArticle

/-! ### Pipeline results -/

/-- An error escaping `deepAnalyzeArticles` / `generateSmartTopicInsights`:
either the propagated `callOpenAI` error or the generic error thrown by the
`catch` block after a parse/processing fault. -/
inductive AiError where
  | call (e : CallErr)
  | malformed (msg : String)

/-- Result of one pipeline function together with its observable effects:
the returned value or thrown error, the number of `callOpenAI` network
invocations, the `console.warn` lines, the `console.error` entries (message
together with the raw model response that is logged alongside it) and the
`console.log` lines. -/
structure RunOut (ρ : Type) where
  result : Except AiError ρ
  apiCalls : Nat
  warnLog : List String
  errorLog : List (String × String)
  infoLog : List String

/-! ### Phase 1: `deepAnalyzeArticles` -/

/-- The `console.warn` text for an incomplete phase-1 record at 0-based
position `i`. -/
def warnMsg1 (i : Nat) : String :=
  "文章" ++ toString (i + 1) ++ "缺少关键字段: targetAudience/scenario/painPoint"

/-- `!summary.targetAudience || !summary.scenario || !summary.painPoint`,
including the `TypeError` a `null` array element raises on the first
access. -/
def summaryNeedsWarn (summary : Json) : Except JsFault Bool :=
  match getProp (some summary) "targetAudience" with
  | .error f => .error f
  | .ok ta =>
    if !truthyVal ta then .ok true
    else
      match getProp (some summary) "scenario" with
      | .error f => .error f
      | .ok sc =>
        if !truthyVal sc then .ok true
        else
          match getProp (some summary) "painPoint" with
          | .error f => .error f
          | .ok pp => .ok (!truthyVal pp)

/-- The `summaries.forEach` validation loop starting at 0-based index `i`:
collects the warnings; on a fault it also reports the warnings already
emitted before the fault. -/
def warnLoop1 (i : Nat) : List Json → Except (JsFault × List String) (List String)
  | [] => .ok []
  | e :: es =>
    match summaryNeedsWarn e with
    | .error f => .error (f, [])
    | .ok b =>
      match warnLoop1 (i + 1) es with
      | .error (f, ws) => .error (f, if b then warnMsg1 i :: ws else ws)
      | .ok ws => .ok (if b then warnMsg1 i :: ws else ws)

/-- The phase-1 `try` block after the model call: fence cleanup, `JSON.parse`
(the `parse` oracle), `parsed.summaries || []`, the `forEach` validation
(`.forEach` on a truthy non-array is not a function, hence a `TypeError`),
and the return of the untouched `summaries` value. -/
def tryBody1 (parse : String → Option Json) (response : String) :
    Except (JsFault × List String) (List Json × List String) :=
  match parse (cleanResponseOf response) with
  | none => .error (.syntaxError, [])
  | some parsed =>
    match getProp (some parsed) "summaries" with
    | .error f => .error (f, [])
    | .ok sVal =>
      match jsOr sVal (Json.jarr []) with
      | .jarr elems =>
        match warnLoop1 0 elems with
        | .error (f, ws) => .error (f, ws)
        | .ok ws => .ok (elems, ws)
      | _ => .error (.typeError, [])

/-- `deepAnalyzeArticles`: empty-input short-circuit (no network call), prompt
construction (only the `articlesJson` data block is modelled — see
`builtArticles`; the surrounding natural-language template does not influence
control flow), the single `callOpenAI` invocation, and the `try`/`catch`
around response parsing.  The `catch` block logs
`console.error('解析AI响应失败:', response)` — retaining the raw response —
and throws the generic `深度文章分析失败` error. -/
def deepAnalyzeArticles (apiKey : String) (fetchResult : FetchOutcome)
    (parse : String → Option Json) (articles : List ArticleInput) :
    RunOut (List Json) :=
  if articles.isEmpty then
    { result := .ok [], apiCalls := 0, warnLog := [], errorLog := [], infoLog := [] }
  else
    let _articlesJson := builtArticles articles
    match callOpenAI apiKey fetchResult with
    | .error e =>
      { result := .error (.call e), apiCalls := 1, warnLog := [], errorLog := [], infoLog := [] }
    | .ok response =>
      match tryBody1 parse response with
      | .ok (elems, ws) =>
        { result := .ok elems, apiCalls := 1, warnLog := ws, errorLog := [], infoLog := [] }
      | .error (_, ws) =>
        { result := .error (.malformed "深度文章分析失败"), apiCalls := 1, warnLog := ws,
          errorLog := [("解析AI响应失败:", response)], infoLog := [] }

/-! ### Phase 2: `generateSmartTopicInsights` -/

/-- The `console.warn` text for a phase-2 record failing the keyword-field
check at 0-based position `i`. -/
def warnMsg2 (i : Nat) : String :=
  "洞察" ++ toString (i + 1) ++ "缺少必需的关键词字段"

/-- `!insight.keywords?.scene || !insight.keywords?.audience ||
!insight.keywords?.need`: the source evaluates `insight.keywords` once per
disjunct; the access is pure, so the single evaluation here is equivalent
(and a `null` insight faults on the very first access either way). -/
def insightNeedsWarn (insight : Json) : Except JsFault Bool :=
  match getProp (some insight) "keywords" with
  | .error f => .error f
  | .ok kw =>
    if !truthyVal (optChain kw "scene") then .ok true
    else if !truthyVal (optChain kw "audience") then .ok true
    else .ok (!truthyVal (optChain kw "need"))

/-- The `insights.forEach` validation loop, as `warnLoop1`. -/
def warnLoop2 (i : Nat) : List Json → Except (JsFault × List String) (List String)
  | [] => .ok []
  | e :: es =>
    match insightNeedsWarn e with
    | .error f => .error (f, [])
    | .ok b =>
      match warnLoop2 (i + 1) es with
      | .error (f, ws) => .error (f, if b then warnMsg2 i :: ws else ws)
      | .ok ws => .ok (if b then warnMsg2 i :: ws else ws)

/-- The sort key of the comparator `(a, b) => b.confidence - a.confidence`:
the numeric `confidence` field.  Elements without a numeric `confidence`
would make the comparator inconsistent (`NaN` is treated as `±0` per
comparison by the ECMAScript sort); the key defaults to `0` for them, and the
ranking theorems are stated for insight lists whose elements all carry a
numeric `confidence`, where the model is exact. -/
def confKey (j : Json) : ℚ :=
  match jGet j "confidence" with
  | some (.jnum q) => q
  | _ => 0

/-- The cap of the Insight Ranker & Capper: `insights.slice(0, 10)` when more
than 10 insights were parsed, the list itself otherwise. -/
def capInsights (l : List Json) : List Json :=
  if l.length > 10 then l.take 10 else l

/-- The sort of the Insight Ranker & Capper: stable sort by `confidence`
descending. -/
def sortInsights (l : List Json) : List Json :=
  sortDescBy confKey l

/-- The Insight Ranker & Capper as the source composes it: cap first (the
`slice` runs before the final `sort`), then sort. -/
def rankInsights (l : List Json) : List Json :=
  sortInsights (capInsights l)

/-- The `console.warn`/`console.log` lines of the count-check branch, keyed by
the parsed insight count. -/
def capLogs (n : Nat) : List String × List String :=
  if n = 0 then (["AI未能生成任何洞察"], [])
  else if n > 10 then ([], ["AI生成了" ++ toString n ++ "条选题洞察，截取前10条"])
  else ([], ["AI生成了" ++ toString n ++ "条选题洞察"])

/-- The phase-2 `try` block after the model call: fence cleanup, `JSON.parse`,
`parsed.insights || []`, count check with cap, the `forEach` keyword-field
validation on the capped list, and the final stable confidence sort.  For a
truthy non-array `insights` value the processing faults at the `forEach`
(`TypeError`); the count-branch `console.log` emitted before that fault is
not modelled (no claim depends on it). -/
def tryBody2 (parse : String → Option Json) (response : String) :
    Except (JsFault × List String × List String) (List Json × List String × List String) :=
  match parse (cleanResponseOf response) with
  | none => .error (.syntaxError, [], [])
  | some parsed =>
    match getProp (some parsed) "insights" with
    | .error f => .error (f, [], [])
    | .ok iVal =>
      match jsOr iVal (Json.jarr []) with
      | .jarr elems =>
        let logs := capLogs elems.length
        let capped := capInsights elems
        match warnLoop2 0 capped with
        | .error (f, ws) => .error (f, logs.1 ++ ws, logs.2)
        | .ok ws => .ok (sortInsights capped, logs.1 ++ ws, logs.2)
      | _ => .error (.typeError, [], [])

/-- The aggregate statistics the orchestrator passes into the phase-2 prompt
verbatim. -/
structure Stats where
  totalArticles : Nat
  avgReads : ℚ
  avgLikes : ℚ
  avgEngagement : String

/-- `generateSmartTopicInsights`: empty-input short-circuit (no network
call), the single `callOpenAI` invocation, and the `try`/`catch` around
response parsing; the `catch` logs `console.error('解析洞察失败:', response)`
and throws `智能选题洞察生成失败`.  The summaries and stats reach the model
only through the prompt text, which does not influence control flow. -/
def generateSmartTopicInsights (apiKey : String) (fetchResult : FetchOutcome)
    (parse : String → Option Json) (summaries : List Json) (stats : Stats) :
    RunOut (List Json) :=
  if summaries.isEmpty then
    { result := .ok [], apiCalls := 0, warnLog := [], errorLog := [], infoLog := [] }
  else
    let _stats := stats
    match callOpenAI apiKey fetchResult with
    | .error e =>
      { result := .error (.call e), apiCalls := 1, warnLog := [], errorLog := [], infoLog := [] }
    | .ok response =>
      match tryBody2 parse response with
      | .ok (ins, ws, infos) =>
        { result := .ok ins, apiCalls := 1, warnLog := ws, errorLog := [], infoLog := infos }
      | .error (_, ws, infos) =>
        { result := .error (.malformed "智能选题洞察生成失败"), apiCalls := 1, warnLog := ws,
          errorLog := [("解析洞察失败:", response)], infoLog := infos }

/-! ### Word-Frequency Aggregator (`generateWordCloud`) -/

/-- The slice of an `ArticleSummary` the aggregator reads: its `keywords`
array (possibly absent, guarded by `s.keywords || []` in the source). -/
structure ArticleSummaryT where
  keywords : Option (List String)

/-- A word-cloud entry `{word, count, size}`. -/
structure WordCloudEntry where
  word : String
  count : Nat
  size : Nat
deriving DecidableEq, Repr

/-- `wordCount[word] = (wordCount[word] || 0) + 1` on the accumulator object:
increment in place when the key exists, add a fresh key otherwise.  The
`Record<string, number>` is modelled as an association list whose keys are
kept in first-insertion order; the ECMAScript enumeration order that
`Object.entries` actually applies to it (array-index keys first, in numeric
order) is modelled separately by `entriesOrder`. -/
def bump : List (String × Nat) → String → List (String × Nat)
  | [], w => [(w, 1)]
  | (k, c) :: rest, w =>
    if k = w then (k, c + 1) :: rest else (k, c) :: bump rest w

/-- The frequency table built by `allKeywords.forEach(...)`, keys in
first-insertion order. -/
def buildWordCount (kws : List String) : List (String × Nat) :=
  kws.foldl bump []

/-- The numeric value of a decimal digit string. -/
def decimalVal (cs : List Char) : Nat :=
  cs.foldl (fun acc c => acc * 10 + (c.toNat - 48)) 0

/-- Whether `s` is an ECMAScript array index: the canonical decimal form (no
sign, no leading zero except `"0"` itself) of an integer below `2^32 - 1`.
`Object.entries` enumerates such keys before all others. -/
def isArrayIndex (s : String) : Bool :=
  match s.toList with
  | [] => false
  | c :: rest =>
    (c :: rest).all Char.isDigit && (rest.isEmpty || c != '0')
      && decide (decimalVal (c :: rest) < 4294967295)

/-- The numeric value of an array-index key. -/
def arrayIndexVal (s : String) : Nat :=
  decimalVal s.toList

/-- The enumeration order `Object.entries` applies to an ordinary object
whose keys were created in the list's order (per `OrdinaryOwnPropertyKeys`):
array-index keys first, in ascending numeric order, then the remaining
string keys in creation (insertion) order. -/
def entriesOrder (tbl : List (String × Nat)) : List (String × Nat) :=
  sortAscBy (fun p => arrayIndexVal p.1) (tbl.filter (fun p => isArrayIndex p.1))
    ++ tbl.filter (fun p => !isArrayIndex p.1)

/-- The arrow function of `.map(([word, count], index) => {...})` together
with the index bookkeeping of `Array.prototype.map`: attach
`size = Math.max(20, 48 - index * 2)` (for every reachable index the
truncated `Nat` subtraction agrees with the JS value, since `max` clamps all
indices past 14 to 20 in both readings). -/
def sizeMap (i : Nat) : List (String × Nat) → List WordCloudEntry
  | [] => []
  | p :: ps => ⟨p.1, p.2, max 20 (48 - i * 2)⟩ :: sizeMap (i + 1) ps

/-- `generateWordCloud`: flatten all `keywords` arrays, count per distinct
keyword, enumerate the count record in `Object.entries` order
(`entriesOrder`), stable sort by count descending
(`Object.entries(...).sort(([,a], [,b]) => b - a)`), keep the first 20, and
attach the rank-based display size. -/
def generateWordCloud (summaries : List ArticleSummaryT) : List WordCloudEntry :=
  let allKeywords := summaries.flatMap (fun s => s.keywords.getD [])
  let wordCount := buildWordCount allKeywords
  sizeMap 0 ((sortDescBy (fun p => p.2) (entriesOrder wordCount)).take 20)

/-- First-seen deduplication: the keyword order in which the count record's
keys are created (used to state the tie-breaking clause of the word-cloud
claim). -/
def firstSeen (l : List String) : List String :=
  l.foldl (fun acc w => if w ∈ acc then acc else acc ++ [w]) []

/-- The `Object.entries` enumeration order at the level of key lists:
array-index-like keywords first in ascending numeric order, then the rest in
the given (first-seen) order. -/
def enumOrder (ws : List String) : List String :=
  sortAscBy arrayIndexVal (ws.filter (fun w => isArrayIndex w))
    ++ ws.filter (fun w => !isArrayIndex w)

/-- First-match count lookup in a frequency table (`0` when absent). -/
def countOf : List (String × Nat) → String → Nat
  | [], _ => 0
  | (k, c) :: rest, w => if k = w then c else countOf rest w

/-! ### Pure characterizations of the validation loops -/

/-- The warning condition of the phase-1 validator on a non-`null` record:
`targetAudience`, `scenario` or `painPoint` absent or JS-falsy. -/
def summaryWarnBool (j : Json) : Bool :=
  !truthyVal (jGet j "targetAudience") || !truthyVal (jGet j "scenario")
    || !truthyVal (jGet j "painPoint")

/-- The warnings `warnLoop1` emits on a fault-free list, starting at index
`i`. -/
def warnList1 (i : Nat) : List Json → List String
  | [] => []
  | e :: es => (if summaryWarnBool e then [warnMsg1 i] else []) ++ warnList1 (i + 1) es

/-- The warning condition of the phase-2 validator on a non-`null` record:
`keywords?.scene`, `keywords?.audience` or `keywords?.need` absent or
JS-falsy. -/
def insightWarnBool (j : Json) : Bool :=
  !truthyVal (optChain (jGet j "keywords") "scene")
    || !truthyVal (optChain (jGet j "keywords") "audience")
    || !truthyVal (optChain (jGet j "keywords") "need")

/-- The warnings `warnLoop2` emits on a fault-free list, starting at index
`i`. -/
def warnList2 (i : Nat) : List Json → List String
  | [] => []
  | e :: es => (if insightWarnBool e then [warnMsg2 i] else []) ++ warnList2 (i + 1) es

/-! ### Concrete fixtures for witnesses and counterexamples -/

/-- A 2xx fetch outcome whose first choice carries `resp` as the model
text. -/
def okFetch (resp : String) : FetchOutcome :=
  .success ⟨some [⟨some ⟨some resp⟩⟩]⟩

/-- A one-article batch (to make the input set non-empty). -/
def oneArticle : List ArticleInput :=
  [⟨"标题", none, 0, 0, "https://example.com"⟩]

/-- A minimal insight record carrying only a numeric confidence. -/
def insightWithConf (c : ℚ) : Json :=
  Json.jobj [("confidence", Json.jnum c)]

/-- Ten confidence-70 insights followed by one confidence-95 insight. -/
def elevenInsights : List Json :=
  List.replicate 10 (insightWithConf 70) ++ [insightWithConf 95]

/-- A parse oracle: the model text parses to `{"insights": [...11 items]}`. -/
def parseEleven : String → Option Json :=
  fun _ => some (Json.jobj [("insights", Json.jarr elevenInsights)])

/-- A parse oracle for a response whose text is `{"summaries": 5}` — valid
JSON whose `summaries` field is a truthy non-array. -/
def parseNonArraySummaries : String → Option Json :=
  fun s => if s = "\x7b\"summaries\": 5\x7d" then some (Json.jobj [("summaries", Json.jnum 5)]) else none

/-- A parse oracle for the response text `null` — valid JSON, but `null` has
no fields and property access on it throws. -/
def parseNullDoc : String → Option Json :=
  fun s => if s = "null" then some Json.jnull else none

/-- A parse oracle yielding a `summaries` array with one empty record and one
complete record. -/
def parseTwoSummaries : String → Option Json :=
  fun _ => some (Json.jobj [("summaries", Json.jarr
    [Json.jobj [],
     Json.jobj [("targetAudience", Json.jstr "宝妈"), ("scenario", Json.jstr "睡前阅读"),
                ("painPoint", Json.jstr "时间紧张")]])])

/-- A parse oracle yielding an object that lacks the expected top-level key
in both phases. -/
def parseOtherKey : String → Option Json :=
  fun _ => some (Json.jobj [("something", Json.jnum 1)])

/-- A phase-2 record whose `keywords.scene` is present but empty: no field is
absent, yet the validator warns. -/
def emptySceneInsight : Json :=
  Json.jobj [("keywords", Json.jobj
    [("scene", Json.jstr ""), ("audience", Json.jstr "程序员"), ("need", Json.jstr "提效")])]

/-- A phase-2 record shaped per the documented produced schema: complete
three-dimension analysis, no `keywords` object. -/
def schemaShapedInsight : Json :=
  Json.jobj
    [("title", Json.jstr "AI写作提效"), ("description", Json.jstr "…"),
     ("confidence", Json.jnum 85), ("evidence", Json.jarr [Json.jstr "文章1"]),
     ("decisionStage", Json.jobj [("stage", Json.jstr "认知期"), ("reason", Json.jstr "…")]),
     ("audienceScene", Json.jobj [("audience", Json.jstr "程序员"),
                                  ("scene", Json.jstr "深夜加班"), ("reason", Json.jstr "…")]),
     ("demandPainPoint", Json.jobj [("emotionalPain", Json.jstr "焦虑"),
                                    ("realisticPain", Json.jstr "瓶颈"),
                                    ("expectation", Json.jstr "方案"), ("reason", Json.jstr "…")]),
     ("tags", Json.jarr [Json.jstr "AI"]), ("marketPotential", Json.jstr "high"),
     ("contentSaturation", Json.jnum 65), ("recommendedFormat", Json.jstr "教程类"),
     ("keyDifferentiators", Json.jarr [Json.jstr "差异化点1"])]

/-- Three insights with a tie: confidence 80, 90, 80, distinguishable by a
`t` tag. -/
def tiedInsights : List Json :=
  [Json.jobj [("confidence", Json.jnum 80), ("t", Json.jstr "a")],
   Json.jobj [("confidence", Json.jnum 90), ("t", Json.jstr "b")],
   Json.jobj [("confidence", Json.jnum 80), ("t", Json.jstr "c")]]

/-- An article with 1 like and 3 reads (engagement 33.3). -/
def articleOneThird : ArticleInput := ⟨"标题", none, 1, 3, "https://example.com"⟩

/-- Two summaries with keywords `["a", "b"]` and `["a"]`. -/
def twoSummaries : List ArticleSummaryT := [⟨some ["a", "b"]⟩, ⟨some ["a"]⟩]

/-- One summary whose keywords are `["b", "10"]`: `"10"` is an array-index
string, so `Object.entries` enumerates it before the earlier-seen `"b"`. -/
def numKeywordSummary : List ArticleSummaryT := [⟨some ["b", "10"]⟩]

/-- The default stats record used to instantiate phase 2. -/
def someStats : Stats := ⟨1, 0, 0, "0"⟩

/-! ## Theorems -/

section SortLemmas

variable {α β : Type} [LinearOrder β] (key : α → β)

theorem perm_insDesc (x : α) (l : List α) : List.Perm (insDesc key x l) (x :: l) := by
  induction l with
  | nil => exact List.Perm.refl _
  | cons y ys ih =>
    by_cases h : key y ≤ key x
    · simp only [insDesc, if_pos h]
      exact List.Perm.refl _
    · simp only [insDesc, if_neg h]
      exact List.Perm.trans (List.Perm.cons y ih) (List.Perm.swap x y ys)

theorem perm_sortDescBy (l : List α) : List.Perm (sortDescBy key l) l := by
  induction l with
  | nil => exact List.Perm.refl _
  | cons x xs ih =>
    exact List.Perm.trans (perm_insDesc key x (sortDescBy key xs)) (List.Perm.cons x ih)

theorem length_sortDescBy (l : List α) : (sortDescBy key l).length = l.length :=
  (perm_sortDescBy key l).length_eq

theorem mem_insDesc {a x : α} {l : List α} :
    a ∈ insDesc key x l ↔ a = x ∨ a ∈ l := by
  rw [(perm_insDesc key x l).mem_iff, List.mem_cons]

theorem mem_sortDescBy {a : α} {l : List α} :
    a ∈ sortDescBy key l ↔ a ∈ l :=
  (perm_sortDescBy key l).mem_iff

theorem pairwise_insDesc {x : α} {l : List α}
    (h : l.Pairwise (fun a b => key b ≤ key a)) :
    (insDesc key x l).Pairwise (fun a b => key b ≤ key a) := by
  induction l with
  | nil => simp [insDesc]
  | cons y ys ih =>
    rw [List.pairwise_cons] at h
    obtain ⟨h1, h2⟩ := h
    by_cases hxy : key y ≤ key x
    · simp only [insDesc, if_pos hxy]
      refine List.Pairwise.cons ?_ (List.Pairwise.cons h1 h2)
      intro b hb
      rcases List.mem_cons.mp hb with rfl | hb
      · exact hxy
      · exact le_trans (h1 b hb) hxy
    · simp only [insDesc, if_neg hxy]
      refine List.Pairwise.cons ?_ (ih h2)
      intro b hb
      rcases (mem_insDesc key).mp hb with rfl | hb
      · exact le_of_lt (lt_of_not_le hxy)
      · exact h1 b hb

theorem pairwise_sortDescBy (l : List α) :
    (sortDescBy key l).Pairwise (fun a b => key b ≤ key a) := by
  induction l with
  | nil => simp [sortDescBy]
  | cons x xs ih => exact pairwise_insDesc key ih

theorem filter_insDesc (c : β) (x : α) (l : List α) :
    (insDesc key x l).filter (fun a => decide (key a = c))
      = if key x = c then x :: l.filter (fun a => decide (key a = c))
        else l.filter (fun a => decide (key a = c)) := by
  induction l with
  | nil =>
    simp only [insDesc, List.filter]
    by_cases hx : key x = c <;> simp [hx]
  | cons y ys ih =>
    by_cases hxy : key y ≤ key x
    · simp only [insDesc, if_pos hxy, List.filter_cons]
      by_cases hx : key x = c <;> simp [hx]
    · have hlt : key x < key y := lt_of_not_le hxy
      simp only [insDesc, if_neg hxy, List.filter_cons, ih]
      by_cases hx : key x = c
      · have hy : ¬ (key y = c) := fun hy => absurd (hy.trans hx.symm) (ne_of_gt hlt)
        simp [hx, hy]
      · by_cases hy : key y = c <;> simp [hx, hy]

theorem filter_sortDescBy (c : β) (l : List α) :
    (sortDescBy key l).filter (fun a => decide (key a = c))
      = l.filter (fun a => decide (key a = c)) := by
  induction l with
  | nil => rfl
  | cons x xs ih =>
    by_cases hx : key x = c <;>
      simp [sortDescBy, filter_insDesc, List.filter, hx, ih]

end SortLemmas

theorem getProp_of_ne_null (j : Json) (k : String) (h : j ≠ Json.jnull) :
    getProp (some j) k = .ok (jGet j k) := by
  cases j <;> simp_all [getProp, jGet]

theorem warnChain (a b c : Bool) :
    (if !a then Except.ok true else if !b then Except.ok true
      else Except.ok (!c) : Except JsFault Bool) = .ok (!a || !b || !c) := by
  cases a <;> cases b <;> cases c <;> rfl

theorem summaryNeedsWarn_of_ne_null (j : Json) (h : j ≠ Json.jnull) :
    summaryNeedsWarn j = .ok (summaryWarnBool j) := by
  unfold summaryNeedsWarn summaryWarnBool
  rw [getProp_of_ne_null j "targetAudience" h, getProp_of_ne_null j "scenario" h,
    getProp_of_ne_null j "painPoint" h]
  exact warnChain _ _ _

theorem insightNeedsWarn_of_ne_null (j : Json) (h : j ≠ Json.jnull) :
    insightNeedsWarn j = .ok (insightWarnBool j) := by
  unfold insightNeedsWarn insightWarnBool
  rw [getProp_of_ne_null j "keywords" h]
  exact warnChain _ _ _

theorem warnLoop1_of_no_null :
    ∀ (elems : List Json), (∀ e ∈ elems, e ≠ Json.jnull) →
      ∀ i, warnLoop1 i elems = .ok (warnList1 i elems)
  | [], _, _ => rfl
  | e :: es, h, i => by
    have he := h e (List.mem_cons_self e es)
    have hes : ∀ x ∈ es, x ≠ Json.jnull := fun x hx => h x (List.mem_cons_of_mem e hx)
    have ih := warnLoop1_of_no_null es hes (i + 1)
    simp only [warnLoop1, summaryNeedsWarn_of_ne_null e he, ih]
    cases hw : summaryWarnBool e <;> simp [warnList1, hw]

theorem warnLoop2_of_no_null :
    ∀ (elems : List Json), (∀ e ∈ elems, e ≠ Json.jnull) →
      ∀ i, warnLoop2 i elems = .ok (warnList2 i elems)
  | [], _, _ => rfl
  | e :: es, h, i => by
    have he := h e (List.mem_cons_self e es)
    have hes : ∀ x ∈ es, x ≠ Json.jnull := fun x hx => h x (List.mem_cons_of_mem e hx)
    have ih := warnLoop2_of_no_null es hes (i + 1)
    simp only [warnLoop2, insightNeedsWarn_of_ne_null e he, ih]
    cases hw : insightWarnBool e <;> simp [warnList2, hw]

theorem mem_warnList1 :
    ∀ (elems : List Json) (i k : Nat) (hk : k < elems.length),
      summaryWarnBool (elems.get ⟨k, hk⟩) = true → warnMsg1 (i + k) ∈ warnList1 i elems
  | e :: es, i, 0, _, hw => by
    simp only [List.get] at hw
    simp [warnList1, hw]
  | e :: es, i, k + 1, hk, hw => by
    have hk2 : k < es.length := by simpa using Nat.lt_of_succ_lt_succ hk
    have ih := mem_warnList1 es (i + 1) k hk2 (by simpa [List.get] using hw)
    have hidx : i + (k + 1) = (i + 1) + k := by omega
    rw [hidx]
    exact List.mem_append_right _ ih

/-! ### Pipeline unfolding lemmas -/

theorem deepAnalyze_ok (apiKey : String) (fetchResult : FetchOutcome)
    (parse : String → Option Json) (articles : List ArticleInput) (response : String)
    (hne : articles ≠ []) (hcall : callOpenAI apiKey fetchResult = .ok response) :
    deepAnalyzeArticles apiKey fetchResult parse articles =
      match tryBody1 parse response with
      | .ok (elems, ws) => ⟨.ok elems, 1, ws, [], []⟩
      | .error (_, ws) =>
        ⟨.error (.malformed "深度文章分析失败"), 1, ws, [("解析AI响应失败:", response)], []⟩ := by
  obtain ⟨a, as, rfl⟩ := List.exists_cons_of_ne_nil hne
  simp only [deepAnalyzeArticles, List.isEmpty_cons, Bool.false_eq_true, if_false, hcall]

theorem genInsights_ok (apiKey : String) (fetchResult : FetchOutcome)
    (parse : String → Option Json) (summaries : List Json) (stats : Stats) (response : String)
    (hne : summaries ≠ []) (hcall : callOpenAI apiKey fetchResult = .ok response) :
    generateSmartTopicInsights apiKey fetchResult parse summaries stats =
      match tryBody2 parse response with
      | .ok (ins, ws, infos) => ⟨.ok ins, 1, ws, [], infos⟩
      | .error (_, ws, infos) =>
        ⟨.error (.malformed "智能选题洞察生成失败"), 1, ws, [("解析洞察失败:", response)], infos⟩ := by
  obtain ⟨a, as, rfl⟩ := List.exists_cons_of_ne_nil hne
  simp only [generateSmartTopicInsights, List.isEmpty_cons, Bool.false_eq_true, if_false, hcall]

theorem tryBody1_parse_fail (parse : String → Option Json) (response : String)
    (h : parse (cleanResponseOf response) = none) :
    tryBody1 parse response = .error (.syntaxError, []) := by
  simp [tryBody1, h]

theorem tryBody2_parse_fail (parse : String → Option Json) (response : String)
    (h : parse (cleanResponseOf response) = none) :
    tryBody2 parse response = .error (.syntaxError, [], []) := by
  simp [tryBody2, h]

theorem tryBody1_good (parse : String → Option Json) (response : String)
    (fs : List (String × Json)) (elems : List Json)
    (hp : parse (cleanResponseOf response) = some (Json.jobj fs))
    (hs : lookupFs fs "summaries" = some (Json.jarr elems))
    (hnn : ∀ e ∈ elems, e ≠ Json.jnull) :
    tryBody1 parse response = .ok (elems, warnList1 0 elems) := by
  simp only [tryBody1, hp, getProp, hs, jsOr, jsTruthy, if_true]
  rw [warnLoop1_of_no_null elems hnn 0]

theorem tryBody1_absent (parse : String → Option Json) (response : String) (j : Json)
    (hp : parse (cleanResponseOf response) = some j) (hj : j ≠ Json.jnull)
    (hs : jGet j "summaries" = none) :
    tryBody1 parse response = .ok ([], []) := by
  simp only [tryBody1, hp, getProp_of_ne_null j _ hj, hs, jsOr]
  rfl

theorem tryBody2_good (parse : String → Option Json) (response : String)
    (fs : List (String × Json)) (elems : List Json)
    (hp : parse (cleanResponseOf response) = some (Json.jobj fs))
    (hs : lookupFs fs "insights" = some (Json.jarr elems))
    (hnn : ∀ e ∈ capInsights elems, e ≠ Json.jnull) :
    tryBody2 parse response =
      .ok (sortInsights (capInsights elems),
        (capLogs elems.length).1 ++ warnList2 0 (capInsights elems),
        (capLogs elems.length).2) := by
  simp only [tryBody2, hp, getProp, hs, jsOr, jsTruthy, if_true]
  rw [warnLoop2_of_no_null (capInsights elems) hnn 0]

theorem tryBody2_absent (parse : String → Option Json) (response : String) (j : Json)
    (hp : parse (cleanResponseOf response) = some j) (hj : j ≠ Json.jnull)
    (hs : jGet j "insights" = none) :
    tryBody2 parse response = .ok ([], ["AI未能生成任何洞察"], []) := by
  simp only [tryBody2, hp, getProp_of_ne_null j _ hj, hs, jsOr]
  rfl

theorem capInsights_sublist (l : List Json) : List.Sublist (capInsights l) l := by
  unfold capInsights
  split
  · exact List.take_sublist 10 l
  · exact List.Sublist.refl l

/-! ## Claims -/

/-- Claim C4: for the empty article set, phase-1 deep analysis returns the
empty sequence, and for the empty summary set, phase-2 insight generation
returns the empty sequence — in both cases with zero `callOpenAI` network
invocations, no error, and no log output. -/
theorem c4_empty_input_short_circuit (apiKey : String) (fetchResult : FetchOutcome)
    (parse : String → Option Json) (stats : Stats) :
    deepAnalyzeArticles apiKey fetchResult parse [] = ⟨.ok [], 0, [], [], []⟩
    ∧ generateSmartTopicInsights apiKey fetchResult parse [] stats = ⟨.ok [], 0, [], [], []⟩ :=
  ⟨rfl, rfl⟩

/-- Claim C9: with a configured key and a success body, the empty-string
fallback of the Completion Client fires when `choices` is present as the
empty array, while a body with no `choices` field at all makes the unguarded
`data.choices[0]` fault, so the call errors instead of returning `''`. -/
theorem c9_choices_fallback (apiKey : String) (body : SuccessBody) (h : apiKey ≠ "") :
    (body.choices = some [] → callOpenAI apiKey (.success body) = .ok "")
    ∧ (body.choices = none →
        callOpenAI apiKey (.success body) = .error (.jsFault .typeError)) := by
  constructor <;> intro hc <;> simp [callOpenAI, h, hc, extractContent]

/-- Witness for C9 at a concrete key and concrete bodies. -/
theorem c9_witness :
    callOpenAI "k" (.success ⟨some []⟩) = .ok ""
    ∧ callOpenAI "k" (.success ⟨none⟩) = .error (.jsFault .typeError) :=
  ⟨(c9_choices_fallback "k" ⟨some []⟩ (by decide)).1 rfl,
   (c9_choices_fallback "k" ⟨none⟩ (by decide)).2 rfl⟩

/-- Claim C1 counterexample: eleven insights, the last one with the strictly
highest confidence 95.  The pipeline returns exactly the ten confidence-70
insights: the `slice(0, 10)` runs before the sort, so the highest-confidence
insight of the input is dropped — the output is not the 10 highest-confidence
insights. -/
theorem c1_counterexample :
    elevenInsights.length > 10
    ∧ insightWithConf 95 ∈ elevenInsights
    ∧ confKey (insightWithConf 95) = 95
    ∧ (generateSmartTopicInsights "k" (okFetch "resp") parseEleven [Json.jobj []]
        someStats).result = .ok (List.replicate 10 (insightWithConf 70))
    ∧ (List.replicate 10 (insightWithConf 70)).map confKey = List.replicate 10 70 := by
  refine ⟨by decide, ?_, rfl, rfl, rfl⟩
  exact List.mem_append_right _ (List.mem_singleton_self _)

/-- Claim C1 (amended): for every insight sequence of length greater than 10
(elements carrying a numeric confidence), the Insight Ranker & Capper returns
exactly 10 elements sorted by confidence descending — but they are the first
10 insights the model emitted (truncation happens before sorting), not
necessarily the 10 highest-confidence insights of the input. -/
theorem c1_cap_before_sort (l : List Json) (h : l.length > 10)
    (hnum : ∀ j ∈ l, ∃ q, jGet j "confidence" = some (Json.jnum q)) :
    (rankInsights l).length = 10
    ∧ rankInsights l = sortInsights (l.take 10)
    ∧ (rankInsights l).Pairwise (fun a b => confKey b ≤ confKey a) := by
  have hcap : capInsights l = l.take 10 := if_pos h
  refine ⟨?_, ?_, ?_⟩
  · rw [rankInsights, hcap, sortInsights, length_sortDescBy, List.length_take]
    omega
  · rw [rankInsights, hcap]
  · simp only [rankInsights, sortInsights]
    exact pairwise_sortDescBy confKey _

/-- Witness for the amended C1 at the eleven-insight input. -/
theorem c1_witness :
    (rankInsights elevenInsights).length = 10
    ∧ rankInsights elevenInsights = sortInsights (elevenInsights.take 10)
    ∧ (rankInsights elevenInsights).Pairwise (fun a b => confKey b ≤ confKey a) :=
  c1_cap_before_sort elevenInsights (by decide) (by
    intro j hj
    simp only [elevenInsights] at hj
    rcases List.mem_append.mp hj with h | h
    · rw [List.eq_of_mem_replicate h]
      exact ⟨70, rfl⟩
    · rw [List.mem_singleton.mp h]
      exact ⟨95, rfl⟩)

/-- Claim C2: for every insight sequence whose elements carry a numeric
confidence, the ranked output is non-increasing in confidence, has length at
most 10, and equal-confidence insights keep their relative input order: for
every confidence value, the output's subsequence at that confidence is an
in-order subsequence of the input's. -/
theorem c2_rank_stable (l : List Json)
    (hnum : ∀ j ∈ l, ∃ q, jGet j "confidence" = some (Json.jnum q)) :
    (rankInsights l).Pairwise (fun a b => confKey b ≤ confKey a)
    ∧ (rankInsights l).length ≤ 10
    ∧ ∀ c : ℚ, List.Sublist
        ((rankInsights l).filter (fun j => decide (confKey j = c)))
        (l.filter (fun j => decide (confKey j = c))) := by
  refine ⟨?_, ?_, ?_⟩
  · simp only [rankInsights, sortInsights]
    exact pairwise_sortDescBy confKey _
  · simp only [rankInsights, sortInsights]
    rw [length_sortDescBy]
    unfold capInsights
    split
    · rw [List.length_take]
      omega
    · omega
  · intro c
    simp only [rankInsights, sortInsights]
    rw [filter_sortDescBy confKey c (capInsights l)]
    exact List.Sublist.filter _ (capInsights_sublist l)

/-- Witness for C2 at a three-insight input with a confidence tie. -/
theorem c2_witness :
    (rankInsights tiedInsights).Pairwise (fun a b => confKey b ≤ confKey a)
    ∧ (rankInsights tiedInsights).length ≤ 10
    ∧ List.Sublist ((rankInsights tiedInsights).filter (fun j => decide (confKey j = 80)))
        (tiedInsights.filter (fun j => decide (confKey j = 80))) := by
  have h := c2_rank_stable tiedInsights (by
    intro j hj
    simp only [tiedInsights, List.mem_cons, List.not_mem_nil, or_false] at hj
    rcases hj with rfl | rfl | rfl
    · exact ⟨80, rfl⟩
    · exact ⟨90, rfl⟩
    · exact ⟨80, rfl⟩)
  exact ⟨h.1, h.2.1, h.2.2 80⟩

/-- Claim C7 counterexample: a phase-2 record whose `keywords.scene`,
`keywords.audience` and `keywords.need` are all present (scene being the
empty string) still receives the missing-keyword-fields warning, so the
warning is not equivalent to a field being absent. -/
theorem c7_counterexample :
    optChain (jGet emptySceneInsight "keywords") "scene" ≠ none
    ∧ optChain (jGet emptySceneInsight "keywords") "audience" ≠ none
    ∧ optChain (jGet emptySceneInsight "keywords") "need" ≠ none
    ∧ insightNeedsWarn emptySceneInsight = .ok true := by
  refine ⟨?_, ?_, ?_, rfl⟩ <;> simp [emptySceneInsight, optChain, jGet, lookupFs]

/-- Claim C7 (amended): for every non-null phase-2 record, the validator
warns iff one of `keywords?.scene`, `keywords?.audience`, `keywords?.need` is
absent or JS-falsy (e.g. the empty string); in particular, every record
shaped per the documented produced schema — which has `decisionStage`,
`audienceScene`, `demandPainPoint` and no `keywords` object — receives the
warning regardless of how complete it is. -/
theorem c7_keyword_validator (j : Json) (hj : j ≠ Json.jnull) :
    (insightNeedsWarn j = .ok true ↔
      (truthyVal (optChain (jGet j "keywords") "scene") = false
       ∨ truthyVal (optChain (jGet j "keywords") "audience") = false
       ∨ truthyVal (optChain (jGet j "keywords") "need") = false))
    ∧ (jGet j "keywords" = none → insightNeedsWarn j = .ok true) := by
  have h := insightNeedsWarn_of_ne_null j hj
  constructor
  · rw [h]
    unfold insightWarnBool
    simp only [Except.ok.injEq, Bool.or_eq_true, Bool.not_eq_true']
    exact Iff.trans Iff.rfl or_assoc
  · intro hk
    rw [h]
    unfold insightWarnBool
    rw [hk]
    simp [optChain, truthyVal]

/-- Witness for the amended C7 at a complete documented-schema record. -/
theorem c7_witness :
    jGet schemaShapedInsight "keywords" = none
    ∧ insightNeedsWarn schemaShapedInsight = .ok true := by
  have h := c7_keyword_validator schemaShapedInsight (by simp [schemaShapedInsight])
  exact ⟨rfl, h.2 rfl⟩

/-- Claim C5: when the model response parses to an object whose `summaries`
field is an array of (non-null) records, phase 1 returns exactly those
records — none removed, none mutated — and for each record missing any of
`targetAudience`, `scenario`, `painPoint` the corresponding warning is
recorded while the record is still part of the returned array. -/
theorem c5_validation_advisory (apiKey : String) (fetchResult : FetchOutcome)
    (parse : String → Option Json) (articles : List ArticleInput) (response : String)
    (fs : List (String × Json)) (elems : List Json)
    (hne : articles ≠ [])
    (hcall : callOpenAI apiKey fetchResult = .ok response)
    (hp : parse (cleanResponseOf response) = some (Json.jobj fs))
    (hs : lookupFs fs "summaries" = some (Json.jarr elems))
    (hnn : ∀ e ∈ elems, e ≠ Json.jnull) :
    (deepAnalyzeArticles apiKey fetchResult parse articles).result = .ok elems
    ∧ ∀ k (hk : k < elems.length),
        (jGet (elems.get ⟨k, hk⟩) "targetAudience" = none
          ∨ jGet (elems.get ⟨k, hk⟩) "scenario" = none
          ∨ jGet (elems.get ⟨k, hk⟩) "painPoint" = none) →
        warnMsg1 k ∈ (deepAnalyzeArticles apiKey fetchResult parse articles).warnLog := by
  have hrun := deepAnalyze_ok apiKey fetchResult parse articles response hne hcall
  rw [tryBody1_good parse response fs elems hp hs hnn] at hrun
  constructor
  · rw [hrun]
  · intro k hk hmiss
    rw [hrun]
    show warnMsg1 k ∈ warnList1 0 elems
    have hw : summaryWarnBool (elems.get ⟨k, hk⟩) = true := by
      unfold summaryWarnBool
      rcases hmiss with h1 | h1 | h1 <;> rw [h1] <;> simp [truthyVal]
    simpa using mem_warnList1 elems 0 k hk hw

/-- Witness for C5: one empty record (warned, retained) and one complete
record, both returned unchanged. -/
theorem c5_witness :
    (deepAnalyzeArticles "k" (okFetch "resp") parseTwoSummaries oneArticle).result
      = .ok [Json.jobj [],
             Json.jobj [("targetAudience", Json.jstr "宝妈"), ("scenario", Json.jstr "睡前阅读"),
                        ("painPoint", Json.jstr "时间紧张")]]
    ∧ warnMsg1 0 ∈ (deepAnalyzeArticles "k" (okFetch "resp") parseTwoSummaries oneArticle).warnLog := by
  have h := c5_validation_advisory "k" (okFetch "resp") parseTwoSummaries oneArticle "resp" _ _
    (by simp [oneArticle]) rfl rfl rfl (by
      intro e he
      simp only [List.mem_cons, List.mem_singleton] at he
      rcases he with rfl | rfl | h
      · simp
      · simp
      · exact absurd h (List.not_mem_nil e))
  exact ⟨h.1, h.2 0 (by decide) (Or.inl rfl)⟩

/-- Claim C10 counterexample: the response text `null` parses (to JSON
`null`, which has no `summaries` key), yet phase 1 raises the malformed-
response error instead of returning the empty array, because `parsed.summaries`
on `null` throws inside the `try` block. -/
theorem c10_counterexample :
    parseNullDoc (cleanResponseOf "null") = some Json.jnull
    ∧ jGet Json.jnull "summaries" = none
    ∧ (deepAnalyzeArticles "k" (okFetch "null") parseNullDoc oneArticle).result
        = .error (.malformed "深度文章分析失败")
    ∧ (deepAnalyzeArticles "k" (okFetch "null") parseNullDoc oneArticle).errorLog
        = [("解析AI响应失败:", "null")] :=
  ⟨rfl, rfl, rfl, rfl⟩

/-- Claim C10 (amended): for every model response whose cleaned text parses
to a JSON value other than `null` that lacks the expected top-level key
(`summaries` in phase 1, `insights` in phase 2), the operation returns the
empty array with no error raised — indistinguishable in its result from the
empty-input short-circuit. -/
theorem c10_schemaless_response (apiKey : String) (fetchResult : FetchOutcome)
    (parse : String → Option Json) (articles : List ArticleInput) (summaries : List Json)
    (stats : Stats) (response : String) (j : Json)
    (hne1 : articles ≠ []) (hne2 : summaries ≠ [])
    (hcall : callOpenAI apiKey fetchResult = .ok response)
    (hp : parse (cleanResponseOf response) = some j) (hj : j ≠ Json.jnull) :
    (jGet j "summaries" = none →
        (deepAnalyzeArticles apiKey fetchResult parse articles).result = .ok []
      ∧ (deepAnalyzeArticles apiKey fetchResult parse articles).errorLog = []
      ∧ (deepAnalyzeArticles apiKey fetchResult parse articles).result
          = (deepAnalyzeArticles apiKey fetchResult parse []).result)
    ∧ (jGet j "insights" = none →
        (generateSmartTopicInsights apiKey fetchResult parse summaries stats).result = .ok []
      ∧ (generateSmartTopicInsights apiKey fetchResult parse summaries stats).errorLog = []
      ∧ (generateSmartTopicInsights apiKey fetchResult parse summaries stats).result
          = (generateSmartTopicInsights apiKey fetchResult parse [] stats).result) := by
  constructor
  · intro hs
    have hrun := deepAnalyze_ok apiKey fetchResult parse articles response hne1 hcall
    rw [tryBody1_absent parse response j hp hj hs] at hrun
    rw [hrun]
    exact ⟨rfl, rfl, rfl⟩
  · intro hs
    have hrun := genInsights_ok apiKey fetchResult parse summaries stats response hne2 hcall
    rw [tryBody2_absent parse response j hp hj hs] at hrun
    rw [hrun]
    exact ⟨rfl, rfl, rfl⟩

/-- Witness for the amended C10 at a parse oracle yielding an object without
the expected keys. -/
theorem c10_witness :
    (deepAnalyzeArticles "k" (okFetch "resp") parseOtherKey oneArticle).result = .ok []
    ∧ (generateSmartTopicInsights "k" (okFetch "resp") parseOtherKey [Json.jobj []]
        someStats).result = .ok [] := by
  have h := c10_schemaless_response "k" (okFetch "resp") parseOtherKey oneArticle
    [Json.jobj []] someStats "resp" (Json.jobj [("something", Json.jnum 1)])
    (by simp [oneArticle]) (by simp) rfl rfl (by simp)
  exact ⟨(h.1 rfl).1, (h.2 rfl).1⟩

/-- Claim C3 counterexample: the response text `{"summaries": 5}` parses
successfully, yet phase 1 raises the malformed-response error, because the
truthy non-array `summaries` value makes the `forEach` inside the same `try`
block throw — parse success does not preclude the error. -/
theorem c3_counterexample :
    parseNonArraySummaries (cleanResponseOf "\x7b\"summaries\": 5\x7d")
      = some (Json.jobj [("summaries", Json.jnum 5)])
    ∧ (deepAnalyzeArticles "k" (okFetch "\x7b\"summaries\": 5\x7d") parseNonArraySummaries
        oneArticle).result = .error (.malformed "深度文章分析失败") :=
  ⟨rfl, rfl⟩

/-- Claim C3 (amended): in both phases, if parsing the cleaned text fails the
operation fails with the malformed-response error and the raw response text
is retained in the logged error context; parse success alone does not rule
the error out (the counterexample faults after parsing), but it is not raised
when the parsed value is an object whose expected field is an array of
non-null records, or is absent. -/
theorem c3_malformed_response (apiKey : String) (fetchResult : FetchOutcome)
    (parse : String → Option Json) (articles : List ArticleInput) (summaries : List Json)
    (stats : Stats) (response : String)
    (hne1 : articles ≠ []) (hne2 : summaries ≠ [])
    (hcall : callOpenAI apiKey fetchResult = .ok response) :
    (parse (cleanResponseOf response) = none →
        (deepAnalyzeArticles apiKey fetchResult parse articles).result
          = .error (.malformed "深度文章分析失败")
      ∧ (deepAnalyzeArticles apiKey fetchResult parse articles).errorLog
          = [("解析AI响应失败:", response)]
      ∧ (generateSmartTopicInsights apiKey fetchResult parse summaries stats).result
          = .error (.malformed "智能选题洞察生成失败")
      ∧ (generateSmartTopicInsights apiKey fetchResult parse summaries stats).errorLog
          = [("解析洞察失败:", response)])
    ∧ (∀ fs, parse (cleanResponseOf response) = some (Json.jobj fs) →
        (∀ elems, lookupFs fs "summaries" = some (Json.jarr elems) →
            (∀ e ∈ elems, e ≠ Json.jnull) →
            (deepAnalyzeArticles apiKey fetchResult parse articles).result = .ok elems
          ∧ (deepAnalyzeArticles apiKey fetchResult parse articles).errorLog = [])
      ∧ (lookupFs fs "summaries" = none →
            (deepAnalyzeArticles apiKey fetchResult parse articles).result = .ok []
          ∧ (deepAnalyzeArticles apiKey fetchResult parse articles).errorLog = [])
      ∧ (∀ elems, lookupFs fs "insights" = some (Json.jarr elems) →
            (∀ e ∈ capInsights elems, e ≠ Json.jnull) →
            (generateSmartTopicInsights apiKey fetchResult parse summaries stats).result
              = .ok (sortInsights (capInsights elems))
          ∧ (generateSmartTopicInsights apiKey fetchResult parse summaries stats).errorLog = [])
      ∧ (lookupFs fs "insights" = none →
            (generateSmartTopicInsights apiKey fetchResult parse summaries stats).result = .ok []
          ∧ (generateSmartTopicInsights apiKey fetchResult parse summaries stats).errorLog = [])) := by
  have hrun1 := deepAnalyze_ok apiKey fetchResult parse articles response hne1 hcall
  have hrun2 := genInsights_ok apiKey fetchResult parse summaries stats response hne2 hcall
  constructor
  · intro hfail
    rw [tryBody1_parse_fail parse response hfail] at hrun1
    rw [tryBody2_parse_fail parse response hfail] at hrun2
    rw [hrun1, hrun2]
    exact ⟨rfl, rfl, rfl, rfl⟩
  · intro fs hp
    refine ⟨?_, ?_, ?_, ?_⟩
    · intro elems hs hnn
      have h1 := hrun1
      rw [tryBody1_good parse response fs elems hp hs hnn] at h1
      rw [h1]
      exact ⟨rfl, rfl⟩
    · intro hs
      have h1 := hrun1
      rw [tryBody1_absent parse response (Json.jobj fs) hp (by simp) hs] at h1
      rw [h1]
      exact ⟨rfl, rfl⟩
    · intro elems hs hnn
      have h2 := hrun2
      rw [tryBody2_good parse response fs elems hp hs hnn] at h2
      rw [h2]
      exact ⟨rfl, rfl⟩
    · intro hs
      have h2 := hrun2
      rw [tryBody2_absent parse response (Json.jobj fs) hp (by simp) hs] at h2
      rw [h2]
      exact ⟨rfl, rfl⟩

/-- Witness for the amended C3 at a parse oracle that always fails. -/
theorem c3_witness :
    (deepAnalyzeArticles "k" (okFetch "not json") (fun _ => none) oneArticle).result
        = .error (.malformed "深度文章分析失败")
    ∧ (deepAnalyzeArticles "k" (okFetch "not json") (fun _ => none) oneArticle).errorLog
        = [("解析AI响应失败:", "not json")] := by
  have h := c3_malformed_response "k" (okFetch "not json") (fun _ => none) oneArticle
    [Json.jobj []] someStats "not json" (by simp [oneArticle]) (by simp) rfl
  exact ⟨(h.1 rfl).1, (h.1 rfl).2.1⟩

/-- Claim C8: for every article embedded by the phase-1 prompt builder, the
engagement string is exactly `"0"` when `reads = 0`; when `reads > 0` it is
`likes/reads*100` rounded to the nearest tenth (ties up, as `toFixed(1)` does
on the exact value) and rendered with exactly one digit after the decimal
point. -/
theorem c8_engagement (a : ArticleInput) (i : Nat) :
    (a.reads = 0 → (embedArticle i a).engagement = "0")
    ∧ (0 < a.reads → ∃ t : Nat,
        (embedArticle i a).engagement = toString (t / 10) ++ "." ++ toString (t % 10)
        ∧ t % 10 < 10
        ∧ |(t : ℚ) / 10 - 100 * (a.likes : ℚ) / (a.reads : ℚ)| ≤ 1 / 20) := by
  constructor
  · intro h
    simp [embedArticle, h]
  · intro h
    refine ⟨(2000 * a.likes + a.reads) / (2 * a.reads), ?_, Nat.mod_lt _ (by norm_num), ?_⟩
    · simp [embedArticle, toFixed1Of, h]
    · have hr0 : (0 : ℚ) < (a.reads : ℚ) := by exact_mod_cast h
      have hrne : (a.reads : ℚ) ≠ 0 := ne_of_gt hr0
      have hdm : 2 * a.reads * ((2000 * a.likes + a.reads) / (2 * a.reads))
          + (2000 * a.likes + a.reads) % (2 * a.reads) = 2000 * a.likes + a.reads :=
        Nat.div_add_mod _ _
      have hmlt : (2000 * a.likes + a.reads) % (2 * a.reads) < 2 * a.reads :=
        Nat.mod_lt _ (by omega)
      set t := (2000 * a.likes + a.reads) / (2 * a.reads) with ht
      set m := (2000 * a.likes + a.reads) % (2 * a.reads) with hm
      have hdmq : (2 : ℚ) * a.reads * t + m = 2000 * a.likes + a.reads := by exact_mod_cast hdm
      have hmltq : (m : ℚ) < 2 * a.reads := by exact_mod_cast hmlt
      have hmq : (0 : ℚ) ≤ (m : ℚ) := by positivity
      have key : (t : ℚ) / 10 - 100 * (a.likes : ℚ) / (a.reads : ℚ)
          = ((a.reads : ℚ) - m) / (20 * a.reads) := by
        field_simp
        linear_combination (10 * (a.reads : ℚ)) * hdmq
      rw [key, abs_div, abs_of_pos (by positivity : (0 : ℚ) < 20 * (a.reads : ℚ)),
        div_le_div_iff₀ (by positivity) (by norm_num : (0 : ℚ) < 20)]
      have habs : |(a.reads : ℚ) - m| ≤ (a.reads : ℚ) := by
        rw [abs_le]
        constructor <;> linarith
      linarith

/-- Witness for C8 at a zero-reads article and at 1 like / 3 reads. -/
theorem c8_witness :
    (embedArticle 0 ⟨"标题", none, 5, 0, "u"⟩).engagement = "0"
    ∧ ∃ t : Nat,
        (embedArticle 0 articleOneThird).engagement
          = toString (t / 10) ++ "." ++ toString (t % 10)
        ∧ t % 10 < 10
        ∧ |(t : ℚ) / 10 - 100 * (articleOneThird.likes : ℚ) / (articleOneThird.reads : ℚ)|
            ≤ 1 / 20 :=
  ⟨(c8_engagement ⟨"标题", none, 5, 0, "u"⟩ 0).1 rfl,
   (c8_engagement articleOneThird 0).2 (by decide)⟩

/-! ### Word-cloud lemmas -/

theorem bump_keys (acc : List (String × Nat)) (w : String) :
    (bump acc w).map Prod.fst =
      if w ∈ acc.map Prod.fst then acc.map Prod.fst else acc.map Prod.fst ++ [w] := by
  induction acc with
  | nil => simp [bump]
  | cons p ps ih =>
    obtain ⟨k, c⟩ := p
    by_cases h : k = w
    · subst h
      simp [bump]
    · by_cases hmem : w ∈ ps.map Prod.fst <;>
        simp [bump, h, ih, hmem, Ne.symm h]

theorem countOf_bump (acc : List (String × Nat)) (w v : String) :
    countOf (bump acc w) v = countOf acc v + (if v = w then 1 else 0) := by
  induction acc with
  | nil =>
    by_cases h : v = w
    · subst h
      simp [bump, countOf]
    · simp [bump, countOf, h, Ne.symm h]
  | cons p ps ih =>
    obtain ⟨k, c⟩ := p
    by_cases hk : k = w
    · subst hk
      by_cases hv : k = v
      · subst hv
        simp [bump, countOf]
      · simp [bump, countOf, hv, Ne.symm hv]
    · by_cases hv : k = v
      · subst hv
        simp [bump, hk, countOf]
      · simp [bump, hk, countOf, hv, ih]

theorem countOf_foldl (l : List String) (acc : List (String × Nat)) (v : String) :
    countOf (List.foldl bump acc l) v = countOf acc v + l.count v := by
  induction l generalizing acc with
  | nil => simp
  | cons w ws ih =>
    rw [List.foldl_cons, ih (bump acc w), countOf_bump, List.count_cons]
    by_cases h : v = w
    · subst h
      simp
      omega
    · simp [beq_iff_eq, h, Ne.symm h]

theorem countOf_buildWordCount (kws : List String) (v : String) :
    countOf (buildWordCount kws) v = kws.count v := by
  rw [buildWordCount, countOf_foldl]
  simp [countOf]

theorem keys_bump_foldl (l : List String) (acc : List (String × Nat)) :
    (List.foldl bump acc l).map Prod.fst =
      List.foldl (fun a w => if w ∈ a then a else a ++ [w]) (acc.map Prod.fst) l := by
  induction l generalizing acc with
  | nil => rfl
  | cons w ws ih =>
    rw [List.foldl_cons, List.foldl_cons, ih, bump_keys]

theorem keys_buildWordCount (kws : List String) :
    (buildWordCount kws).map Prod.fst = firstSeen kws := by
  rw [buildWordCount, keys_bump_foldl]
  rfl

theorem keys_nodup_bump (acc : List (String × Nat)) (w : String)
    (h : (acc.map Prod.fst).Nodup) : ((bump acc w).map Prod.fst).Nodup := by
  rw [bump_keys]
  split
  · exact h
  · next hmem =>
    rw [List.nodup_append]
    exact ⟨h, List.nodup_singleton w, by
      intro x hx hx2
      rw [List.mem_singleton] at hx2
      subst hx2
      exact hmem hx⟩

theorem keys_nodup_foldl (l : List String) (acc : List (String × Nat))
    (h : (acc.map Prod.fst).Nodup) : ((List.foldl bump acc l).map Prod.fst).Nodup := by
  induction l generalizing acc with
  | nil => exact h
  | cons w ws ih => exact ih (bump acc w) (keys_nodup_bump acc w h)

theorem keys_nodup_buildWordCount (kws : List String) :
    ((buildWordCount kws).map Prod.fst).Nodup :=
  keys_nodup_foldl kws [] (by simp)

theorem pos_counts_bump (acc : List (String × Nat)) (w : String)
    (h : ∀ p ∈ acc, 1 ≤ p.2) : ∀ p ∈ bump acc w, 1 ≤ p.2 := by
  induction acc with
  | nil =>
    intro p hp
    simp only [bump, List.mem_singleton] at hp
    subst hp
    exact le_refl 1
  | cons q qs ih =>
    obtain ⟨k, c⟩ := q
    intro p hp
    by_cases hk : k = w
    · simp only [bump, if_pos hk, List.mem_cons] at hp
      rcases hp with rfl | hp
      · show 1 ≤ c + 1
        omega
      · exact h p (List.mem_cons_of_mem _ hp)
    · simp only [bump, if_neg hk, List.mem_cons] at hp
      rcases hp with rfl | hp
      · exact h (k, c) (List.mem_cons_self _ _)
      · exact ih (fun q hq => h q (List.mem_cons_of_mem _ hq)) p hp

theorem pos_counts_foldl (l : List String) (acc : List (String × Nat))
    (h : ∀ p ∈ acc, 1 ≤ p.2) : ∀ p ∈ List.foldl bump acc l, 1 ≤ p.2 := by
  induction l generalizing acc with
  | nil => exact h
  | cons w ws ih => exact ih (bump acc w) (pos_counts_bump acc w h)

theorem pos_counts_buildWordCount (kws : List String) :
    ∀ p ∈ buildWordCount kws, 1 ≤ p.2 :=
  pos_counts_foldl kws [] (by simp)

theorem countOf_of_mem (acc : List (String × Nat)) (h : (acc.map Prod.fst).Nodup)
    (p : String × Nat) (hp : p ∈ acc) : countOf acc p.1 = p.2 := by
  induction acc with
  | nil => exact absurd hp (List.not_mem_nil p)
  | cons q qs ih =>
    obtain ⟨k, c⟩ := q
    rw [List.map_cons, List.nodup_cons] at h
    rcases List.mem_cons.mp hp with rfl | hp2
    · simp [countOf]
    · have hne : k ≠ p.1 := by
        intro hkp
        apply h.1
        rw [hkp]
        exact List.mem_map.mpr ⟨p, hp2, rfl⟩
      simp only [countOf, if_neg hne]
      exact ih h.2 hp2

theorem buildWordCount_counts (kws : List String) (p : String × Nat)
    (hp : p ∈ buildWordCount kws) : p.2 = kws.count p.1 ∧ p.1 ∈ kws := by
  have h1 := countOf_of_mem _ (keys_nodup_buildWordCount kws) p hp
  have h2 := countOf_buildWordCount kws p.1
  have hcount : p.2 = kws.count p.1 := by rw [← h1, h2]
  refine ⟨hcount, ?_⟩
  have hpos := pos_counts_buildWordCount kws p hp
  exact List.count_pos_iff.mp (by omega)

theorem sizeMap_length (i : Nat) (l : List (String × Nat)) :
    (sizeMap i l).length = l.length := by
  induction l generalizing i with
  | nil => rfl
  | cons p ps ih => simp [sizeMap, ih]

theorem sizeMap_map_word (i : Nat) (l : List (String × Nat)) :
    (sizeMap i l).map (fun e => e.word) = l.map Prod.fst := by
  induction l generalizing i with
  | nil => rfl
  | cons p ps ih => simp [sizeMap, ih]

theorem mem_sizeMap (i : Nat) (l : List (String × Nat)) (e : WordCloudEntry)
    (he : e ∈ sizeMap i l) : (e.word, e.count) ∈ l := by
  induction l generalizing i with
  | nil => exact absurd he (List.not_mem_nil e)
  | cons p ps ih =>
    rcases List.mem_cons.mp he with rfl | he2
    · exact List.mem_cons_self _ _
    · exact List.mem_cons_of_mem _ (ih (i + 1) he2)

theorem sizeMap_pairwise (i : Nat) (l : List (String × Nat))
    (h : l.Pairwise (fun p q => q.2 ≤ p.2)) :
    (sizeMap i l).Pairwise (fun a b => b.count ≤ a.count) := by
  induction l generalizing i with
  | nil => exact List.Pairwise.nil
  | cons p ps ih =>
    rw [List.pairwise_cons] at h
    refine List.Pairwise.cons ?_ (ih (i + 1) h.2)
    intro b hb
    exact h.1 (b.word, b.count) (mem_sizeMap (i + 1) ps b hb)

theorem sizeMap_filter_word (i : Nat) (l : List (String × Nat)) (c : Nat) :
    ((sizeMap i l).filter (fun e => decide (e.count = c))).map (fun e => e.word)
      = (l.filter (fun p => decide (p.2 = c))).map Prod.fst := by
  induction l generalizing i with
  | nil => rfl
  | cons p ps ih =>
    by_cases h : p.2 = c <;>
      simp [sizeMap, List.filter_cons, h, ih]

theorem sizeMap_size (i : Nat) (l : List (String × Nat)) :
    ∀ (k : Nat) (hk : k < (sizeMap i l).length),
      ((sizeMap i l).get ⟨k, hk⟩).size = max 20 (48 - (i + k) * 2) := by
  induction l generalizing i with
  | nil =>
    intro k hk
    exact absurd hk (by simp [sizeMap])
  | cons p ps ih =>
    intro k hk
    cases k with
    | zero => simp [sizeMap]
    | succ k2 =>
      have hk2 : k2 < (sizeMap (i + 1) ps).length := by
        simpa [sizeMap] using Nat.lt_of_succ_lt_succ hk
      have := ih (i + 1) k2 hk2
      have hidx : i + (k2 + 1) = (i + 1) + k2 := by omega
      rw [hidx]
      simpa [sizeMap] using this

/-! ### `Object.entries` enumeration order lemmas -/

theorem perm_insAsc {α β : Type} [LinearOrder β] (key : α → β) (x : α) (l : List α) :
    List.Perm (insAsc key x l) (x :: l) := by
  induction l with
  | nil => exact List.Perm.refl _
  | cons y ys ih =>
    by_cases h : key x ≤ key y
    · simp only [insAsc, if_pos h]
      exact List.Perm.refl _
    · simp only [insAsc, if_neg h]
      exact List.Perm.trans (List.Perm.cons y ih) (List.Perm.swap x y ys)

theorem perm_sortAscBy {α β : Type} [LinearOrder β] (key : α → β) (l : List α) :
    List.Perm (sortAscBy key l) l := by
  induction l with
  | nil => exact List.Perm.refl _
  | cons x xs ih =>
    exact List.Perm.trans (perm_insAsc key x (sortAscBy key xs)) (List.Perm.cons x ih)

theorem map_insAsc {α β γ : Type} [LinearOrder γ] (f : α → β) (keyA : α → γ) (keyB : β → γ)
    (hkey : ∀ a, keyB (f a) = keyA a) (x : α) (l : List α) :
    (insAsc keyA x l).map f = insAsc keyB (f x) (l.map f) := by
  induction l with
  | nil => rfl
  | cons y ys ih =>
    by_cases h : keyA x ≤ keyA y <;>
      simp [insAsc, hkey, h, ih]

theorem map_sortAscBy {α β γ : Type} [LinearOrder γ] (f : α → β) (keyA : α → γ) (keyB : β → γ)
    (hkey : ∀ a, keyB (f a) = keyA a) (l : List α) :
    (sortAscBy keyA l).map f = sortAscBy keyB (l.map f) := by
  induction l with
  | nil => rfl
  | cons x xs ih =>
    simp only [sortAscBy, List.map_cons]
    rw [map_insAsc f keyA keyB hkey, ih]

theorem map_fst_filter (q : String → Bool) (l : List (String × Nat)) :
    (l.filter (fun p => q p.1)).map Prod.fst = (l.map Prod.fst).filter q := by
  induction l with
  | nil => rfl
  | cons p ps ih => by_cases h : q p.1 <;> simp [List.filter_cons, h, ih]

theorem perm_entriesOrder (tbl : List (String × Nat)) :
    List.Perm (entriesOrder tbl) tbl := by
  refine List.Perm.trans (List.Perm.append_right _ (perm_sortAscBy _ _)) ?_
  exact List.filter_append_perm _ tbl

theorem map_fst_entriesOrder (tbl : List (String × Nat)) :
    (entriesOrder tbl).map Prod.fst = enumOrder (tbl.map Prod.fst) := by
  unfold entriesOrder enumOrder
  rw [List.map_append,
    map_sortAscBy Prod.fst (fun p => arrayIndexVal p.1) arrayIndexVal (fun a => rfl)]
  have h1 : (tbl.filter (fun p => isArrayIndex p.1)).map Prod.fst
      = (tbl.map Prod.fst).filter (fun w => isArrayIndex w) :=
    map_fst_filter (fun w => isArrayIndex w) tbl
  have h2 : (tbl.filter (fun p => !isArrayIndex p.1)).map Prod.fst
      = (tbl.map Prod.fst).filter (fun w => !isArrayIndex w) :=
    map_fst_filter (fun w => !isArrayIndex w) tbl
  rw [h1, h2]

theorem mem_firstSeen_aux :
    ∀ (l acc : List String) (x : String),
      x ∈ List.foldl (fun a w => if w ∈ a then a else a ++ [w]) acc l → x ∈ acc ∨ x ∈ l
  | [], _, _, h => Or.inl h
  | w :: ws, acc, x, h => by
    have h1 := mem_firstSeen_aux ws (if w ∈ acc then acc else acc ++ [w]) x (by simpa using h)
    rcases h1 with h2 | h2
    · by_cases hw : w ∈ acc
      · rw [if_pos hw] at h2
        exact Or.inl h2
      · rw [if_neg hw] at h2
        rcases List.mem_append.mp h2 with h3 | h3
        · exact Or.inl h3
        · rw [List.mem_singleton] at h3
          subst h3
          exact Or.inr (List.mem_cons_self _ _)
    · exact Or.inr (List.mem_cons_of_mem _ h2)

theorem mem_firstSeen (l : List String) (x : String) (h : x ∈ firstSeen l) : x ∈ l := by
  rcases mem_firstSeen_aux l [] x h with h2 | h2
  · exact absurd h2 (List.not_mem_nil x)
  · exact h2

theorem enumOrder_of_no_index (ws : List String) (h : ∀ w ∈ ws, isArrayIndex w = false) :
    enumOrder ws = ws := by
  unfold enumOrder
  have h1 : ws.filter (fun w => isArrayIndex w) = [] := by
    rw [List.filter_eq_nil_iff]
    intro a ha
    simp [h a ha]
  have h2 : ws.filter (fun w => !isArrayIndex w) = ws := by
    rw [List.filter_eq_self]
    intro a ha
    simp [h a ha]
  rw [h1, h2]
  rfl

/-- Claim C6 counterexample: with keywords `["b", "10"]` — each occurring
once, so the counts tie — `Object.entries` enumerates the array-index key
`"10"` before the earlier-seen `"b"`, and the stable count sort keeps that
order: the output words are `["10", "b"]`, not the first-seen order
`["b", "10"]` the claim asserts for ties (and the rank-based sizes attach to
that reordered list). -/
theorem c6_counterexample :
    numKeywordSummary.flatMap (fun s => s.keywords.getD []) = ["b", "10"]
    ∧ firstSeen ["b", "10"] = ["b", "10"]
    ∧ (generateWordCloud numKeywordSummary).map (fun e => e.count) = [1, 1]
    ∧ (generateWordCloud numKeywordSummary).map (fun e => e.word) = ["10", "b"] :=
  ⟨rfl, rfl, rfl, rfl⟩

/-- Claim C6 (amended): the Word-Frequency Aggregator returns at most 20
entries — one per distinct keyword up to that cap (words pairwise distinct,
each occurring in the flattened keyword list with `count` equal to its
number of occurrences, exact case-sensitive match) — sorted by count
descending, and entry at rank `k` carries `size = max 20 (48 - 2*k)`.  Ties,
however, follow the `Object.entries` enumeration order of the frequency
record, not raw first-seen order: array-index-like keywords first in
ascending numeric order, then the remaining keywords in first-seen order
(`enumOrder` over `firstSeen`); when no keyword is an array-index string
this coincides with first-seen order. -/
theorem c6_word_cloud (summaries : List ArticleSummaryT) (kws : List String)
    (entries : List WordCloudEntry)
    (hkws : kws = summaries.flatMap (fun s => s.keywords.getD []))
    (hentries : entries = generateWordCloud summaries) :
    entries.length = min 20 (firstSeen kws).length
    ∧ (entries.map (fun e => e.word)).Nodup
    ∧ (∀ e ∈ entries, e.word ∈ kws ∧ e.count = kws.count e.word)
    ∧ entries.Pairwise (fun a b => b.count ≤ a.count)
    ∧ (∀ c : Nat, List.Sublist
        ((entries.filter (fun e => decide (e.count = c))).map (fun e => e.word))
        (((entriesOrder (buildWordCount kws)).filter (fun p => decide (p.2 = c))).map Prod.fst))
    ∧ (entriesOrder (buildWordCount kws)).map Prod.fst = enumOrder (firstSeen kws)
    ∧ ((∀ w ∈ kws, isArrayIndex w = false) →
        (entriesOrder (buildWordCount kws)).map Prod.fst = firstSeen kws)
    ∧ ∀ (k : Nat) (hk : k < entries.length),
        (entries.get ⟨k, hk⟩).size = max 20 (48 - 2 * k) := by
  subst hkws
  subst hentries
  have hgen : generateWordCloud summaries
      = sizeMap 0 ((sortDescBy (fun p => p.2) (entriesOrder
          (buildWordCount (summaries.flatMap (fun s => s.keywords.getD []))))).take 20) := rfl
  set kws := summaries.flatMap (fun s => s.keywords.getD []) with hk0
  set S := sortDescBy (fun p : String × Nat => p.2)
    (entriesOrder (buildWordCount kws)) with hS
  have hSperm : List.Perm S (buildWordCount kws) :=
    List.Perm.trans (perm_sortDescBy _ _) (perm_entriesOrder _)
  have hkeys : (entriesOrder (buildWordCount kws)).map Prod.fst = enumOrder (firstSeen kws) := by
    rw [map_fst_entriesOrder, keys_buildWordCount]
  refine ⟨?_, ?_, ?_, ?_, ?_, hkeys, ?_, ?_⟩
  · rw [hgen, sizeMap_length, List.length_take, length_sortDescBy]
    have h1 : (entriesOrder (buildWordCount kws)).length = (buildWordCount kws).length :=
      (perm_entriesOrder _).length_eq
    have h2 : (buildWordCount kws).length = (firstSeen kws).length := by
      rw [← keys_buildWordCount kws, List.length_map]
    omega
  · rw [hgen, sizeMap_map_word, List.map_take]
    refine List.Nodup.sublist (List.take_sublist _ _) ?_
    exact (hSperm.map Prod.fst).symm.nodup (keys_nodup_buildWordCount kws)
  · intro e he
    rw [hgen] at he
    have hmem := mem_sizeMap _ _ e he
    have hmem2 : (e.word, e.count) ∈ buildWordCount kws :=
      hSperm.mem_iff.mp ((List.take_sublist _ _).subset hmem)
    have := buildWordCount_counts kws (e.word, e.count) hmem2
    exact ⟨this.2, this.1⟩
  · rw [hgen]
    refine sizeMap_pairwise _ _ ?_
    exact List.Pairwise.sublist (List.take_sublist _ _) (pairwise_sortDescBy _ _)
  · intro c
    rw [hgen, sizeMap_filter_word]
    have h1 : List.Sublist ((S.take 20).filter (fun p => decide (p.2 = c)))
        (S.filter (fun p => decide (p.2 = c))) :=
      List.Sublist.filter _ (List.take_sublist _ _)
    have h2 : S.filter (fun p => decide (p.2 = c))
        = (entriesOrder (buildWordCount kws)).filter (fun p => decide (p.2 = c)) :=
      filter_sortDescBy (fun p : String × Nat => p.2) c (entriesOrder (buildWordCount kws))
    rw [← h2]
    exact h1.map Prod.fst
  · intro hno
    rw [hkeys]
    refine enumOrder_of_no_index _ ?_
    intro w hw
    exact hno w (mem_firstSeen kws w hw)
  · intro k hk
    have hk2 : k < (sizeMap 0 (S.take 20)).length := hk
    show ((sizeMap 0 (S.take 20)).get ⟨k, hk2⟩).size = max 20 (48 - 2 * k)
    rw [sizeMap_size 0 (S.take 20) k hk2]
    omega

/-- Witness for the amended C6 at the spec's own example `[["a","b"],["a"]]`,
whose keywords are all non-index strings, so the tie order is first-seen. -/
theorem c6_witness :
    (generateWordCloud twoSummaries).length
      = min 20 (firstSeen (twoSummaries.flatMap (fun s => s.keywords.getD []))).length
    ∧ ((⟨"a", 2, 48⟩ : WordCloudEntry).word ∈ twoSummaries.flatMap (fun s => s.keywords.getD [])
       ∧ (⟨"a", 2, 48⟩ : WordCloudEntry).count
          = (twoSummaries.flatMap (fun s => s.keywords.getD [])).count
              (⟨"a", 2, 48⟩ : WordCloudEntry).word)
    ∧ (entriesOrder (buildWordCount (twoSummaries.flatMap (fun s => s.keywords.getD [])))).map
        Prod.fst = firstSeen (twoSummaries.flatMap (fun s => s.keywords.getD []))
    ∧ ((generateWordCloud twoSummaries).get ⟨1, by decide⟩).size = max 20 (48 - 2 * 1) := by
  have h := c6_word_cloud twoSummaries _ _ rfl rfl
  exact ⟨h.1, h.2.2.1 ⟨"a", 2, 48⟩ (by decide), h.2.2.2.2.2.2.1 (by decide),
    h.2.2.2.2.2.2.2 1 (by decide)⟩

end WF
